import Mathlib

/-!
Verification development for the chess-backend repository (Go).

Shallow embedding conventions:
* `primitive.ObjectID` is modeled as `Nat`, with `0` playing the role of
  `primitive.NilObjectID` (`IsZero`).
* `time.Time` is modeled as `Nat` ticks; every Go call of `time.Now()` becomes
  an explicit `now : Time` parameter of the embedded operation.
* A Go method with pointer receiver that may mutate the receiver and return an
  error is embedded as a function returning the error (as `Option String`,
  `none` = nil error) together with the post-state of the receiver; Go methods
  that return before mutating leave the receiver unchanged, which the
  embedding mirrors by returning the input state in those branches.
* Error message strings follow the Go sources (apostrophes elided).
-/

namespace Chess

abbrev ObjectID := Nat

abbrev Time := Nat

/-- GameStatus constant from internal/domain/game/entity.go. -/
def GameStatusWaiting : String := "waiting"

/-- GameStatus constant from internal/domain/game/entity.go. -/
def GameStatusActive : String := "active"

/-- GameStatus constant from internal/domain/game/entity.go. -/
def GameStatusFinished : String := "finished"

/-- GameStatus constant from internal/domain/game/entity.go. -/
def GameStatusAbandoned : String := "abandoned"

/-- GameResult constant from internal/domain/game/entity.go. -/
def GameResultWhiteWins : String := "white_wins"

/-- GameResult constant from internal/domain/game/entity.go. -/
def GameResultBlackWins : String := "black_wins"

/-- GameResult constant from internal/domain/game/entity.go. -/
def GameResultDraw : String := "draw"

/-- Move record from internal/domain/game/entity.go (field `Notation` is
rendered `nota`, `From`/`To` as `fromSq`/`toSq`). -/
structure Move where
  fromSq : String
  toSq : String
  piece : String
  player : String
  timestamp : Time
  nota : String
deriving DecidableEq, Repr

/-- Game entity from internal/domain/game/entity.go. `blackPlayer = 0` means
the black seat is unassigned (`omitempty` zero ObjectID). -/
structure Game where
  id : ObjectID
  whitePlayer : ObjectID
  blackPlayer : ObjectID
  status : String
  result : String
  currentTurn : String
  moves : List Move
  board : String
  createdAt : Time
  updatedAt : Time
  finishedAt : Option Time
deriving DecidableEq, Repr

/-- Result of a mutating Game method: the Go error (none = nil) and the
post-state of the receiver. -/
structure OpResult where
  err : Option String
  game : Game
deriving DecidableEq, Repr

/-- NewGame from internal/domain/game/entity.go; the generated ObjectID and
time.Now() are explicit parameters. -/
def NewGame (id whitePlayerID : ObjectID) (now : Time) : Except String Game :=
  if whitePlayerID = 0 then .error "white player ID cannot be empty"
  else .ok
    { id := id
      whitePlayer := whitePlayerID
      blackPlayer := 0
      status := GameStatusWaiting
      result := ""
      currentTurn := "white"
      moves := []
      board := "rnbqkbnr/pppppppp/8/8/8/8/PPPPPPPP/RNBQKBNR w KQkq - 0 1"
      createdAt := now
      updatedAt := now
      finishedAt := none }

/-- Game.JoinGame from internal/domain/game/entity.go. -/
def JoinGame (g : Game) (blackPlayerID : ObjectID) (now : Time) : OpResult :=
  if blackPlayerID = 0 then ⟨some "black player ID cannot be empty", g⟩
  else if g.status ≠ GameStatusWaiting then ⟨some "game is not waiting for players", g⟩
  else if g.whitePlayer = blackPlayerID then ⟨some "player cannot play against themselves", g⟩
  else ⟨none, { g with blackPlayer := blackPlayerID, status := GameStatusActive, updatedAt := now }⟩

/-- Game.MakeMove from internal/domain/game/entity.go: status check, turn
check against the stored current turn, then append the move verbatim and
switch turns.  No board or chess-rule validation appears in the source. -/
def MakeMove (g : Game) (playerID : ObjectID) (fromSq toSq piece nota : String)
    (now : Time) : OpResult :=
  if g.status ≠ GameStatusActive then ⟨some "game is not active", g⟩
  else if g.currentTurn = "white" ∧ g.whitePlayer ≠ playerID then
    ⟨some "it is not your turn", g⟩
  else if g.currentTurn = "black" ∧ g.blackPlayer ≠ playerID then
    ⟨some "it is not your turn", g⟩
  else
    let expectedPlayer := if g.currentTurn = "white" then "white" else "black"
    let move : Move := ⟨fromSq, toSq, piece, expectedPlayer, now, nota⟩
    let newTurn := if g.currentTurn = "white" then "black" else "white"
    ⟨none, { g with moves := g.moves ++ [move], currentTurn := newTurn, updatedAt := now }⟩

/-- Game.ResignGame from internal/domain/game/entity.go. -/
def ResignGame (g : Game) (playerID : ObjectID) (now : Time) : OpResult :=
  if g.status ≠ GameStatusActive then ⟨some "game is not active", g⟩
  else if g.whitePlayer = playerID then
    ⟨none, { g with status := GameStatusFinished, result := GameResultBlackWins,
                    finishedAt := some now, updatedAt := now }⟩
  else if g.blackPlayer = playerID then
    ⟨none, { g with status := GameStatusFinished, result := GameResultWhiteWins,
                    finishedAt := some now, updatedAt := now }⟩
  else ⟨some "player is not part of this game", g⟩

/-- Game.FinishGame from internal/domain/game/entity.go. -/
def FinishGame (g : Game) (result : String) (now : Time) : OpResult :=
  if g.status ≠ GameStatusActive then ⟨some "game is not active", g⟩
  else ⟨none, { g with status := GameStatusFinished, result := result,
                       finishedAt := some now, updatedAt := now }⟩

/-- Game.IsPlayerInGame from internal/domain/game/entity.go. -/
def IsPlayerInGame (g : Game) (playerID : ObjectID) : Bool :=
  g.whitePlayer = playerID ∨ g.blackPlayer = playerID

/-- Game.IsValid from internal/domain/game/entity.go. -/
def GameIsValid (g : Game) : Option String :=
  if g.whitePlayer = 0 then some "white player cannot be empty"
  else if g.status = GameStatusActive ∧ g.blackPlayer = 0 then
    some "active game must have black player"
  else if g.currentTurn ≠ "white" ∧ g.currentTurn ≠ "black" then
    some "current turn must be white or black"
  else none

/-- One call of a mutating Game method of the domain API, with its
arguments and the value of time.Now() during the call. -/
inductive GameOp where
  | join (blackPlayerID : ObjectID) (now : Time)
  | move (playerID : ObjectID) (fromSq toSq piece nota : String) (now : Time)
  | resign (playerID : ObjectID) (now : Time)
  | finish (result : String) (now : Time)
deriving DecidableEq, Repr

/-- The receiver state after one domain API call (unchanged when the call
returned an error, exactly as the Go methods behave). -/
def applyOp (g : Game) : GameOp → OpResult
  | .join b now => JoinGame g b now
  | .move p f t pc n now => MakeMove g p f t pc n now
  | .resign p now => ResignGame g p now
  | .finish r now => FinishGame g r now

/-- Games reachable through the domain API: a NewGame result, followed by any
sequence of JoinGame / MakeMove / ResignGame / FinishGame calls (successful
or not). -/
inductive Reachable : Game → Prop where
  | created (id white : ObjectID) (now : Time) (g : Game) :
      NewGame id white now = Except.ok g → Reachable g
  | stepped (g : Game) (op : GameOp) :
      Reachable g → Reachable ((applyOp g op).game)

/-- A concrete freshly created game (NewGame 5 1 0), used as test input. -/
def gFresh : Game :=
  { id := 5, whitePlayer := 1, blackPlayer := 0, status := GameStatusWaiting,
    result := "", currentTurn := "white", moves := [],
    board := "rnbqkbnr/pppppppp/8/8/8/8/PPPPPPPP/RNBQKBNR w KQkq - 0 1",
    createdAt := 0, updatedAt := 0, finishedAt := none }

/-- The concrete game gFresh after player 2 joined at time 3. -/
def gActive : Game := (applyOp gFresh (.join 2 3)).game

/-- gameService.MakeMove from the game application service: validates the
IDs and the from/to strings, loads the game from the repository, delegates to
the domain MakeMove and stores the updated game.  The repository is modeled
as a map from game ID to stored game; errors leave it unchanged. -/
def svcMakeMove (repo : ObjectID → Option Game) (gameID playerID : ObjectID)
    (fromSq toSq piece nota : String) (now : Time) :
    Option String × (ObjectID → Option Game) :=
  if gameID = 0 then (some "game ID is required", repo)
  else if playerID = 0 then (some "player ID is required", repo)
  else if fromSq = "" ∨ toSq = "" then (some "from and to positions are required", repo)
  else
    match repo gameID with
    | none => (some "failed to find game", repo)
    | some g =>
      let r := MakeMove g playerID fromSq toSq piece nota now
      match r.err with
      | some e => (some ("failed to make move: " ++ e), repo)
      | none => (none, fun i => if i = gameID then some r.game else repo i)

/-- Session entity from internal/domain/session/entity.go.  `ttl` is the TTL
duration (modeled in seconds). -/
structure Sess where
  id : String
  userID : ObjectID
  createdAt : Time
  expiresAt : Time
  ttl : Nat
deriving DecidableEq, Repr

/-- Session.IsExpired from internal/domain/session/entity.go:
`time.Now().After(s.ExpiresAt)`, i.e. strictly after the expiry instant. -/
def Sess.isExpired (s : Sess) (now : Time) : Bool := s.expiresAt < now

/-- Session.NewSession from internal/domain/session/entity.go; the generated
random ID and time.Now() are explicit parameters. -/
def NewSession (sid : String) (userID : ObjectID) (ttl : Nat) (now : Time) : Sess :=
  { id := sid, userID := userID, createdAt := now, expiresAt := now + ttl, ttl := ttl }

/-- State of the Redis store backing the session repository.
`kv key = some (s, dl)` means the string key holds the serialized session `s`
and Redis will natively evict it at deadline `dl` (the key answers reads while
`now < dl`).  `userSess uid` is the `user_sessions:<uid>` set with optional
native deadline `userSessDl uid` (`none` = no TTL set). -/
structure RedisState where
  kv : String → Option (Sess × Time)
  userSess : ObjectID → List String
  userSessDl : ObjectID → Option Time

/-- The session key prefix ("session:" in NewSessionRepository). -/
def skey (sid : String) : String := "session:" ++ sid

/-- Redis GET with native expiry: the value is visible only before the key
deadline. -/
def rGet (st : RedisState) (key : String) (now : Time) : Option Sess :=
  match st.kv key with
  | some (s, dl) => if now < dl then some s else none
  | none => none

/-- Redis SET with TTL: stores the value with deadline now + ttl. -/
def rSet (st : RedisState) (key : String) (s : Sess) (ttl : Nat) (now : Time) : RedisState :=
  { st with kv := fun k => if k = key then some (s, now + ttl) else st.kv k }

/-- Redis DEL on a session key. -/
def rDel (st : RedisState) (key : String) : RedisState :=
  { st with kv := fun k => if k = key then none else st.kv k }

/-- Redis EXPIRE on a session key: resets the deadline of a live key,
no-op on a missing or already-evicted key. -/
def rExpire (st : RedisState) (key : String) (ttl : Nat) (now : Time) : RedisState :=
  match st.kv key with
  | some (s, dl) =>
    if now < dl then
      { st with kv := fun k => if k = key then some (s, now + ttl) else st.kv k }
    else st
  | none => st

/-- Members of the `user_sessions` set visible at `now` (an expired set is
gone, hence empty). -/
def setLive (st : RedisState) (uid : ObjectID) (now : Time) : List String :=
  match st.userSessDl uid with
  | none => st.userSess uid
  | some dl => if now < dl then st.userSess uid else []

/-- Redis SADD on the user sessions set; creating a missing/expired set
yields a key without TTL. -/
def sAdd (st : RedisState) (uid : ObjectID) (sid : String) (now : Time) : RedisState :=
  let cur := setLive st uid now
  let members := if sid ∈ cur then cur else cur ++ [sid]
  { st with
    userSess := fun u => if u = uid then members else st.userSess u,
    userSessDl := fun u => if u = uid then (if cur = [] then none else st.userSessDl u)
                           else st.userSessDl u }

/-- Redis SREM on the user sessions set (an emptied set key is gone). -/
def sRem (st : RedisState) (uid : ObjectID) (sid : String) (now : Time) : RedisState :=
  let members := (setLive st uid now).filter (fun x => x ≠ sid)
  { st with
    userSess := fun u => if u = uid then members else st.userSess u,
    userSessDl := fun u => if u = uid then (if members = [] then none else st.userSessDl u)
                           else st.userSessDl u }

/-- Redis EXPIRE on the user sessions set: resets the deadline of an
existing set, no-op when the set is gone. -/
def sExpire (st : RedisState) (uid : ObjectID) (ttl : Nat) (now : Time) : RedisState :=
  if setLive st uid now = [] then st
  else { st with userSessDl := fun u => if u = uid then some (now + ttl) else st.userSessDl u }

/-- Redis DEL of the user sessions set. -/
def setDel (st : RedisState) (uid : ObjectID) : RedisState :=
  { st with
    userSess := fun u => if u = uid then [] else st.userSess u,
    userSessDl := fun u => if u = uid then none else st.userSessDl u }

/-- Outcome of a session-repository call.  `diverge` marks unbounded
recursion: the fuel-indexed embedding returns it exactly when the Go code
never returns (the FindByID / Delete mutual recursion). -/
inductive RepoOut (α : Type) where
  | ok (a : α)
  | err (msg : String)
  | diverge
deriving DecidableEq, Repr

/-- Character-list prefix test (Boolean), used to embed strings.Contains. -/
def charsHavePrefix : List Char → List Char → Bool
  | [], _ => true
  | _ :: _, [] => false
  | a :: as, b :: bs => a = b && charsHavePrefix as bs

/-- Character-list infix test (Boolean). -/
def charsHaveInfix (pat : List Char) : List Char → Bool
  | [] => charsHavePrefix pat []
  | b :: bs => charsHavePrefix pat (b :: bs) || charsHaveInfix pat bs

/-- strings.Contains from the Go standard library. -/
def strContains (s pat : String) : Bool := charsHaveInfix pat.data s.data

/-- Default TTL used by sessionRepository.Save when the session is already
past its expiry (24 hours, modeled in seconds). -/
def defaultSaveTTL : Nat := 86400

/-- sessionRepository.Save from internal/adapters/redis/session_repository.go:
pipeline of SET (session key, TTL until ExpiresAt, or the 24h default when
that is not positive), SADD into the user sessions set, EXPIRE on that set. -/
def SessionRepo.Save (st : RedisState) (s : Sess) (now : Time) : RepoOut Unit × RedisState :=
  if s.id = "" ∨ s.userID = 0 then (.err "invalid session data", st)
  else
    let ttl := if now < s.expiresAt then s.expiresAt - now else defaultSaveTTL
    let st1 := rSet st (skey s.id) s ttl now
    let st2 := sAdd st1 s.userID s.id now
    let st3 := sExpire st2 s.userID ttl now
    (.ok (), st3)

mutual

/-- sessionRepository.FindByID, fuel-indexed.  On a key that is present but
whose stored session is expired, the Go code calls r.Delete before returning
the "session expired" error; Delete in turn starts with r.FindByID, so the
two recurse into each other.  Fuel exhaustion (`diverge`) models that
unbounded recursion. -/
def SessionRepo.FindByID : Nat → RedisState → String → Time → RepoOut Sess × RedisState
  | 0, st, _, _ => (.diverge, st)
  | fuel + 1, st, sid, now =>
    match rGet st (skey sid) now with
    | none => (.err "session not found", st)
    | some s =>
      if s.isExpired now then
        match SessionRepo.Delete fuel st sid now with
        | (.diverge, st2) => (.diverge, st2)
        | (_, st2) => (.err "session expired", st2)
      else (.ok s, st)

/-- sessionRepository.Delete, fuel-indexed: first FindByID (treating a
"not found" error as already deleted), then a pipeline of DEL on the session
key and SREM on the user sessions set. -/
def SessionRepo.Delete : Nat → RedisState → String → Time → RepoOut Unit × RedisState
  | 0, st, _, _ => (.diverge, st)
  | fuel + 1, st, sid, now =>
    match SessionRepo.FindByID fuel st sid now with
    | (.err msg, st2) =>
      if strContains msg "not found" then (.ok (), st2) else (.err msg, st2)
    | (.diverge, st2) => (.diverge, st2)
    | (.ok s, st2) =>
      let st3 := rDel st2 (skey sid)
      let st4 := sRem st3 s.userID sid now
      (.ok (), st4)

end

/-- sessionRepository.Refresh: FindByID, then a pipeline of EXPIRE on the
session key and EXPIRE on the user sessions set.  The stored session value
(its ExpiresAt in particular) is not rewritten. -/
def SessionRepo.Refresh (fuel : Nat) (st : RedisState) (sid : String) (ttl : Nat)
    (now : Time) : RepoOut Unit × RedisState :=
  match SessionRepo.FindByID fuel st sid now with
  | (.ok s, st2) =>
    let st3 := rExpire st2 (skey sid) ttl now
    let st4 := sExpire st3 s.userID ttl now
    (.ok (), st4)
  | (.err m, st2) => (.err m, st2)
  | (.diverge, st2) => (.diverge, st2)

/-- sessionRepository.DeleteByUserID: SMEMBERS of the user sessions set, then
a pipeline of DEL for every listed session key and DEL of the set itself
(nothing to do when the set is empty or gone). -/
def SessionRepo.DeleteByUserID (st : RedisState) (uid : ObjectID) (now : Time) :
    RepoOut Unit × RedisState :=
  let ids := setLive st uid now
  if ids = [] then (.ok (), st)
  else
    let st1 := ids.foldl (fun acc sid => rDel acc (skey sid)) st
    let st2 := setDel st1 uid
    (.ok (), st2)

/-- The auth service session TTL (24 hours, NewAuthService default). -/
def sessionTTL : Nat := 86400

/-- authService.ValidateSession from internal/application/auth/service.go,
composed with the Redis session repository: empty-ID check, FindByID, then
the lazy IsExpired check with cleanup via Delete. -/
def ValidateSession (fuel : Nat) (st : RedisState) (sid : String) (now : Time) :
    RepoOut ObjectID × RedisState :=
  if sid = "" then (.err "session ID is required", st)
  else
    match SessionRepo.FindByID fuel st sid now with
    | (.err m, st2) => (.err m, st2)
    | (.diverge, st2) => (.diverge, st2)
    | (.ok s, st2) =>
      if s.isExpired now then
        match SessionRepo.Delete fuel st2 sid now with
        | (.diverge, st3) => (.diverge, st3)
        | (_, st3) => (.err "session expired", st3)
      else (.ok s.userID, st2)

/-- authService.RefreshSession from internal/application/auth/service.go,
composed with the Redis session repository. -/
def RefreshSession (fuel : Nat) (st : RedisState) (sid : String) (now : Time) :
    RepoOut Unit × RedisState :=
  if sid = "" then (.err "session ID is required", st)
  else SessionRepo.Refresh fuel st sid sessionTTL now

/-- User record from internal/domain/user/entity.go; `password` holds the
bcrypt hash. -/
structure UserRec where
  id : ObjectID
  username : String
  password : String
  createdAt : Time
  updatedAt : Time
deriving DecidableEq, Repr

/-- user.NewUser from internal/domain/user/entity.go; the bcrypt hash
function, the generated ObjectID and time.Now() are explicit parameters
(byte length of the Go strings modeled as character length). -/
def NewUser (hash : String → String) (id : ObjectID) (username password : String)
    (now : Time) : Except String UserRec :=
  if username = "" then .error "username cannot be empty"
  else if password = "" then .error "password cannot be empty"
  else if password.length < 6 then .error "password must be at least 6 characters"
  else .ok { id := id, username := username, password := hash password,
             createdAt := now, updatedAt := now }

/-- Response of a successful Signup (AuthResponse, the user pointer elided). -/
structure AuthResp where
  message : String
  userID : ObjectID
  sessionID : String
deriving DecidableEq, Repr

/-- authService.Signup from internal/application/auth/service.go, written
against the repository interfaces exactly as the Go service is: the
repository operations are parameters acting on an abstract store state `W`
(reads are pure, writes thread the state), and the generated user ID,
session ID, bcrypt hash and time.Now() are explicit parameters.  An error
result carries the store state reached so far. -/
def Signup {W : Type} (existsByUsername : W → String → Except String Bool)
    (saveUser : W → UserRec → Except String W)
    (saveSession : W → Sess → Except String W)
    (hash : String → String) (newUserID : ObjectID) (newSessID : String)
    (now : Time) (w : W) (username password : String) :
    Except String AuthResp × W :=
  if username = "" ∨ password = "" then (.error "username and password are required", w)
  else if username.length < 3 then
    (.error "username must be at least 3 characters long", w)
  else if password.length < 6 then
    (.error "password must be at least 6 characters long", w)
  else
    match existsByUsername w username with
    | .error e => (.error e, w)
    | .ok true => (.error "username already exists", w)
    | .ok false =>
      match NewUser hash newUserID username password now with
      | .error e => (.error e, w)
      | .ok u =>
        match saveUser w u with
        | .error e => (.error e, w)
        | .ok w1 =>
          let sess := NewSession newSessID u.id sessionTTL now
          match saveSession w1 sess with
          | .error e => (.error e, w1)
          | .ok w2 =>
            (.ok { message := "User registered successfully", userID := u.id,
                   sessionID := sess.id }, w2)

/-- authService.DeleteUser from internal/application/auth/service.go, written
against the repository interfaces exactly as the Go service is: first
sessionRepo.DeleteByUserID, and only on its success userRepo.Delete.  Both
operations act on an abstract store state `W` and return a Go-style error
(`none` = nil) with the post-state. -/
def DeleteUser {W : Type} (delSessionsByUserID delUserRecord : W → ObjectID → Option String × W)
    (w : W) (userID : ObjectID) : Option String × W :=
  match delSessionsByUserID w userID with
  | (some e, w1) => (some e, w1)
  | (none, w1) => delUserRecord w1 userID

/-- The empty Redis store. -/
def emptyRedis : RedisState :=
  { kv := fun _ => none, userSess := fun _ => [], userSessDl := fun _ => none }

/-- A concrete session for the Refresh scenario: expires at tick 100. -/
def sessC1 : Sess := { id := "sid1", userID := 7, createdAt := 0, expiresAt := 100, ttl := 100 }

/-- The store holding sessC1, as Save at time 0 leaves it. -/
def stC1 : RedisState := (SessionRepo.Save emptyRedis sessC1 0).2

/-- The store after RefreshSession of sid1 at time 50. -/
def stC1r : RedisState := (RefreshSession 1 stC1 "sid1" 50).2

/-- A concrete session for the lazy-expiry scenario: expires at tick 100. -/
def sessC7 : Sess := { id := "sid2", userID := 9, createdAt := 0, expiresAt := 100, ttl := 100 }

/-- The store holding sessC7 saved at time 150, i.e. through Save's
default-TTL branch: the key is live until 150 + 86400 while the stored
session is already expired. -/
def stC7 : RedisState := (SessionRepo.Save emptyRedis sessC7 150).2

theorem applyOp_whitePlayer (g : Game) (op : GameOp) :
    (applyOp g op).game.whitePlayer = g.whitePlayer := by
  cases op <;>
    simp only [applyOp, JoinGame, MakeMove, ResignGame, FinishGame] <;>
    split_ifs <;> rfl

theorem applyOp_active_blackPlayer (g : Game) (op : GameOp)
    (h : g.status = GameStatusActive → g.blackPlayer ≠ 0) :
    (applyOp g op).game.status = GameStatusActive →
      (applyOp g op).game.blackPlayer ≠ 0 := by
  cases op <;>
    simp only [applyOp, JoinGame, MakeMove, ResignGame, FinishGame] <;>
    split_ifs <;> intro hs <;>
    first
      | exact h hs
      | simp_all [GameStatusActive, GameStatusFinished]

theorem applyOp_status (g : Game) (op : GameOp) :
    (applyOp g op).game.status = g.status ∨
    (applyOp g op).game.status = GameStatusActive ∨
    (applyOp g op).game.status = GameStatusFinished := by
  cases op <;>
    simp only [applyOp, JoinGame, MakeMove, ResignGame, FinishGame] <;>
    split_ifs <;> simp

theorem reachable_inv (g : Game) (h : Reachable g) :
    g.whitePlayer ≠ 0 ∧ (g.status = GameStatusActive → g.blackPlayer ≠ 0) := by
  induction h with
  | created id white now g hg =>
    unfold NewGame at hg
    split at hg
    · exact absurd hg (by simp)
    · cases hg
      refine ⟨by assumption, ?_⟩
      intro hs
      simp [GameStatusWaiting, GameStatusActive] at hs
  | stepped g op _ ih =>
    exact ⟨by rw [applyOp_whitePlayer]; exact ih.1,
           applyOp_active_blackPlayer g op ih.2⟩

/-- C2: in every game state reachable from NewGame by any sequence of
JoinGame, MakeMove, ResignGame and FinishGame calls, if the status is
"active" then both the white and the black player are non-zero. -/
theorem C2_active_game_has_both_players (g : Game) (h : Reachable g)
    (ha : g.status = GameStatusActive) :
    g.whitePlayer ≠ 0 ∧ g.blackPlayer ≠ 0 :=
  ⟨(reachable_inv g h).1, (reachable_inv g h).2 ha⟩

theorem C2_active_game_has_both_players_witness :
    gActive.status = GameStatusActive ∧ (gActive.whitePlayer ≠ 0 ∧ gActive.blackPlayer ≠ 0) :=
  ⟨by decide,
   C2_active_game_has_both_players gActive
     (Reachable.stepped gFresh (.join 2 3) (Reachable.created 5 1 0 gFresh rfl))
     (by decide)⟩

theorem reachable_status (g : Game) (h : Reachable g) :
    g.status = GameStatusWaiting ∨ g.status = GameStatusActive ∨
      g.status = GameStatusFinished := by
  induction h with
  | created id white now g hg =>
    unfold NewGame at hg
    split at hg
    · exact absurd hg (by simp)
    · cases hg; left; rfl
  | stepped g op _ ih =>
    rcases applyOp_status g op with hs | hs | hs
    · rw [hs]; exact ih
    · right; left; exact hs
    · right; right; exact hs

/-- C10: the "abandoned" status is unreachable through the domain API; no
sequence of JoinGame, MakeMove, ResignGame and FinishGame calls starting
from NewGame yields a game whose status is GameStatusAbandoned. -/
theorem C10_abandoned_status_unreachable (g : Game) (h : Reachable g) :
    g.status ≠ GameStatusAbandoned := by
  rcases reachable_status g h with hs | hs | hs <;> rw [hs] <;>
    simp [GameStatusWaiting, GameStatusActive, GameStatusFinished, GameStatusAbandoned]

theorem C10_abandoned_status_unreachable_witness :
    gActive.status ≠ GameStatusAbandoned :=
  C10_abandoned_status_unreachable gActive
    (Reachable.stepped gFresh (.join 2 3) (Reachable.created 5 1 0 gFresh rfl))

/-- C3: on an active game, a MakeMove call by any player who is not the
current-turn player returns an error and leaves the game entirely
unchanged. -/
theorem C3_out_of_turn_move_rejected (g : Game) (playerID : ObjectID)
    (fromSq toSq piece nota : String) (now : Time)
    (ha : g.status = GameStatusActive)
    (hturn : (g.currentTurn = "white" ∧ playerID ≠ g.whitePlayer) ∨
             (g.currentTurn = "black" ∧ playerID ≠ g.blackPlayer)) :
    (∃ e, (MakeMove g playerID fromSq toSq piece nota now).err = some e) ∧
    (MakeMove g playerID fromSq toSq piece nota now).game = g := by
  rcases hturn with ⟨hc, hp⟩ | ⟨hc, hp⟩
  · have hp2 : ¬ g.whitePlayer = playerID := fun h => hp h.symm
    simp [MakeMove, ha, hc, hp2]
  · have hp2 : ¬ g.blackPlayer = playerID := fun h => hp h.symm
    simp [MakeMove, ha, hc, hp2]

theorem C3_out_of_turn_move_rejected_witness :
    (gActive.status = GameStatusActive ∧ gActive.currentTurn = "white" ∧
       (2 : ObjectID) ≠ gActive.whitePlayer) ∧
    ((∃ e, (MakeMove gActive 2 "e2" "e4" "pawn" "e4" 9).err = some e) ∧
      (MakeMove gActive 2 "e2" "e4" "pawn" "e4" 9).game = gActive) :=
  ⟨by decide,
   C3_out_of_turn_move_rejected gActive 2 "e2" "e4" "pawn" "e4" 9 (by decide)
     (Or.inl ⟨by decide, by decide⟩)⟩

/-- C4: on a waiting game, JoinGame with a black player ID equal to the
white player returns an error and leaves the game unchanged. -/
theorem C4_cannot_join_own_game (g : Game) (now : Time)
    (hw : g.status = GameStatusWaiting) :
    (∃ e, (JoinGame g g.whitePlayer now).err = some e) ∧
    (JoinGame g g.whitePlayer now).game = g := by
  by_cases hz : g.whitePlayer = 0 <;> simp [JoinGame, hw, hz]

theorem C4_cannot_join_own_game_witness :
    gFresh.status = GameStatusWaiting ∧
    ((∃ e, (JoinGame gFresh gFresh.whitePlayer 4).err = some e) ∧
      (JoinGame gFresh gFresh.whitePlayer 4).game = gFresh) :=
  ⟨by decide, C4_cannot_join_own_game gFresh 4 (by decide)⟩

/-- C5: on an active game, a MakeMove call by the player whose color equals
the stored current turn succeeds for arbitrary from/to/piece/notation
strings, appends exactly one move recording those strings verbatim with the
side to move as player, and switches the turn to the opposite color; the
game service additionally only requires the IDs to be non-zero and from/to
non-empty before delegating and storing the updated game. -/
theorem C5_move_accepted_without_legality_check (g : Game) (playerID : ObjectID)
    (fromSq toSq piece nota : String) (now : Time)
    (ha : g.status = GameStatusActive)
    (hturn : (g.currentTurn = "white" ∧ playerID = g.whitePlayer) ∨
             (g.currentTurn = "black" ∧ playerID = g.blackPlayer)) :
    (MakeMove g playerID fromSq toSq piece nota now).err = none ∧
    (MakeMove g playerID fromSq toSq piece nota now).game.moves
      = g.moves ++ [⟨fromSq, toSq, piece, g.currentTurn, now, nota⟩] ∧
    (MakeMove g playerID fromSq toSq piece nota now).game.currentTurn
      = (if g.currentTurn = "white" then "black" else "white") ∧
    (∀ (repo : ObjectID → Option Game) (gameID : ObjectID),
       gameID ≠ 0 → playerID ≠ 0 → fromSq ≠ "" → toSq ≠ "" →
       repo gameID = some g →
       svcMakeMove repo gameID playerID fromSq toSq piece nota now
         = (none, fun i => if i = gameID then
             some (MakeMove g playerID fromSq toSq piece nota now).game
           else repo i)) := by
  have herr : (MakeMove g playerID fromSq toSq piece nota now).err = none ∧
      (MakeMove g playerID fromSq toSq piece nota now).game.moves
        = g.moves ++ [⟨fromSq, toSq, piece, g.currentTurn, now, nota⟩] ∧
      (MakeMove g playerID fromSq toSq piece nota now).game.currentTurn
        = (if g.currentTurn = "white" then "black" else "white") := by
    rcases hturn with ⟨hc, hp⟩ | ⟨hc, hp⟩ <;>
      simp [MakeMove, ha, hc, hp.symm]
  refine ⟨herr.1, herr.2.1, herr.2.2, ?_⟩
  intro repo gameID hgid hpid hf ht hrepo
  simp [svcMakeMove, hgid, hpid, hf, ht, hrepo, herr.1]

theorem C5_move_accepted_without_legality_check_witness :
    (gActive.status = GameStatusActive ∧ gActive.currentTurn = "white" ∧
       (1 : ObjectID) = gActive.whitePlayer) ∧
    (MakeMove gActive 1 "a7" "h2" "rook" "??" 9).err = none ∧
    (MakeMove gActive 1 "a7" "h2" "rook" "??" 9).game.moves
      = gActive.moves ++ [⟨"a7", "h2", "rook", gActive.currentTurn, 9, "??"⟩] :=
  ⟨by decide,
   (C5_move_accepted_without_legality_check gActive 1 "a7" "h2" "rook" "??" 9
      (by decide) (Or.inl ⟨by decide, by decide⟩)).1,
   (C5_move_accepted_without_legality_check gActive 1 "a7" "h2" "rook" "??" 9
      (by decide) (Or.inl ⟨by decide, by decide⟩)).2.1⟩

/-- C9: the move list is append-only: JoinGame, ResignGame and FinishGame
leave the moves unchanged, a successful MakeMove extends them by exactly one
element at the end, a failed MakeMove leaves them unchanged, and every
domain API call leaves the prior move list a prefix of the new one. -/
theorem C9_moves_append_only (g : Game) :
    (∀ b now, (JoinGame g b now).game.moves = g.moves) ∧
    (∀ p now, (ResignGame g p now).game.moves = g.moves) ∧
    (∀ r now, (FinishGame g r now).game.moves = g.moves) ∧
    (∀ p fromSq toSq piece nota now,
       ((MakeMove g p fromSq toSq piece nota now).err = none →
         (MakeMove g p fromSq toSq piece nota now).game.moves
           = g.moves ++ [⟨fromSq, toSq, piece,
               (if g.currentTurn = "white" then "white" else "black"), now, nota⟩]) ∧
       ((MakeMove g p fromSq toSq piece nota now).err ≠ none →
         (MakeMove g p fromSq toSq piece nota now).game.moves = g.moves)) ∧
    (∀ op, List.IsPrefix g.moves ((applyOp g op).game.moves)) := by
  have hjoin : ∀ b now, (JoinGame g b now).game.moves = g.moves := by
    intro b now; simp only [JoinGame]; split_ifs <;> rfl
  have hresign : ∀ p now, (ResignGame g p now).game.moves = g.moves := by
    intro p now; simp only [ResignGame]; split_ifs <;> rfl
  have hfinish : ∀ r now, (FinishGame g r now).game.moves = g.moves := by
    intro r now; simp only [FinishGame]; split_ifs <;> rfl
  have hmove : ∀ p fromSq toSq piece nota now,
      ((MakeMove g p fromSq toSq piece nota now).err = none →
        (MakeMove g p fromSq toSq piece nota now).game.moves
          = g.moves ++ [⟨fromSq, toSq, piece,
              (if g.currentTurn = "white" then "white" else "black"), now, nota⟩]) ∧
      ((MakeMove g p fromSq toSq piece nota now).err ≠ none →
        (MakeMove g p fromSq toSq piece nota now).game.moves = g.moves) := by
    intro p fromSq toSq piece nota now
    simp only [MakeMove]
    split_ifs <;> simp
  refine ⟨hjoin, hresign, hfinish, hmove, ?_⟩
  intro op
  cases op with
  | join b now => rw [show applyOp g (.join b now) = JoinGame g b now from rfl, hjoin]
  | resign p now => rw [show applyOp g (.resign p now) = ResignGame g p now from rfl, hresign]
  | finish r now => rw [show applyOp g (.finish r now) = FinishGame g r now from rfl, hfinish]
  | move p f t pc n now =>
    rcases h : (MakeMove g p f t pc n now).err with _ | e
    · rw [show applyOp g (.move p f t pc n now) = MakeMove g p f t pc n now from rfl,
        (hmove p f t pc n now).1 h]
      exact List.prefix_append _ _
    · rw [show applyOp g (.move p f t pc n now) = MakeMove g p f t pc n now from rfl,
        (hmove p f t pc n now).2 (by simp [h])]

theorem C9_moves_append_only_witness :
    (MakeMove gActive 1 "e2" "e4" "pawn" "e4" 9).err = none ∧
    (MakeMove gActive 1 "e2" "e4" "pawn" "e4" 9).game.moves
      = gActive.moves ++ [⟨"e2", "e4", "pawn",
          (if gActive.currentTurn = "white" then "white" else "black"), 9, "e4"⟩] :=
  ⟨by decide,
   ((C9_moves_append_only gActive).2.2.2.1 1 "e2" "e4" "pawn" "e4" 9).1 (by decide)⟩

theorem findByID_delete_diverge (sid : String) (now : Time) :
    ∀ (fuel : Nat) (st : RedisState) (s : Sess) (dl : Time),
      st.kv (skey sid) = some (s, dl) → now < dl → s.expiresAt < now →
      SessionRepo.FindByID fuel st sid now = (.diverge, st) ∧
      SessionRepo.Delete fuel st sid now = (.diverge, st) := by
  intro fuel
  induction fuel with
  | zero =>
    intro st s dl hkv hdl hex
    exact ⟨rfl, rfl⟩
  | succ n ih =>
    intro st s dl hkv hdl hex
    have hboth := ih st s dl hkv hdl hex
    have hexp : s.isExpired now = true := by simp [Sess.isExpired, hex]
    constructor
    · simp only [SessionRepo.FindByID, rGet, hkv, if_pos hdl, hexp, if_true, hboth.2]
    · simp only [SessionRepo.Delete, hboth.1]

theorem findByID_live (fuel : Nat) (st : RedisState) (sid : String) (now : Time)
    (s : Sess) (dl : Time) (hkv : st.kv (skey sid) = some (s, dl)) (hdl : now < dl)
    (hex : ¬ s.expiresAt < now) :
    SessionRepo.FindByID (fuel + 1) st sid now = (.ok s, st) := by
  simp [SessionRepo.FindByID, rGet, hkv, hdl, Sess.isExpired, hex]

/-- C1 fails on the code: sessionRepository.Refresh only runs EXPIRE on the
Redis keys and never rewrites the stored ExpiresAt, so after a successful
RefreshSession the session key stays live for the new TTL while the stored
session is unchanged; a FindByID (and hence ValidateSession) at any time
past the original ExpiresAt but within the new TTL finds an
expired-but-present key and enters the unbounded FindByID/Delete mutual
recursion instead of treating the session as valid.  Concretely: sessC1
expires at tick 100, RefreshSession at tick 50 succeeds and moves the key
deadline to 86450, and every read at tick 200 diverges. -/
theorem C1_refresh_not_honored_by_reads :
    (∀ fuel, RefreshSession (fuel + 1) stC1 "sid1" 50 = (.ok (), stC1r)) ∧
    stC1r.kv (skey "sid1") = some (sessC1, 86450) ∧
    sessC1.expiresAt = 100 ∧ 200 < 50 + sessionTTL ∧
    (∀ fuel, SessionRepo.FindByID fuel stC1r "sid1" 200 = (.diverge, stC1r)) ∧
    (∀ fuel, ValidateSession fuel stC1r "sid1" 200 = (.diverge, stC1r)) := by
  have hkv : stC1.kv (skey "sid1") = some (sessC1, 100) := by decide
  have hkvr : stC1r.kv (skey "sid1") = some (sessC1, 86450) := by decide
  refine ⟨?_, hkvr, rfl, by decide, ?_, ?_⟩
  · intro fuel
    have hfind := findByID_live fuel stC1 "sid1" 50 sessC1 100 hkv (by decide) (by decide)
    have hfind0 := findByID_live 0 stC1 "sid1" 50 sessC1 100 hkv (by decide) (by decide)
    simp only [RefreshSession, SessionRepo.Refresh, hfind, hfind0, stC1r, if_neg
      (by decide : ¬ ("sid1" : String) = "")]
  · intro fuel
    exact (findByID_delete_diverge "sid1" 200 fuel stC1r sessC1 86450 hkvr
      (by decide) (by decide)).1
  · intro fuel
    have hdiv := (findByID_delete_diverge "sid1" 200 fuel stC1r sessC1 86450 hkvr
      (by decide) (by decide)).1
    simp only [ValidateSession, hdiv, if_neg (by decide : ¬ ("sid1" : String) = "")]

/-- C7 fails on the code: on a session whose stored ExpiresAt is in the past
but whose key is still present (stC7 arises through Save's own default-TTL
branch), sessionRepository.FindByID does not delete the session and return a
"session expired" error; it calls Delete, which calls FindByID again, and
the two recurse without bound (a stack overflow in Go), so neither FindByID
nor authService.ValidateSession ever returns and the store is left
untouched. -/
theorem C7_expired_session_read_diverges :
    stC7.kv (skey "sid2") = some (sessC7, 86550) ∧
    sessC7.isExpired 150 = true ∧
    (∀ fuel, SessionRepo.FindByID fuel stC7 "sid2" 150 = (.diverge, stC7)) ∧
    (∀ fuel, SessionRepo.Delete fuel stC7 "sid2" 150 = (.diverge, stC7)) ∧
    (∀ fuel, ValidateSession fuel stC7 "sid2" 150 = (.diverge, stC7)) := by
  have hkv : stC7.kv (skey "sid2") = some (sessC7, 86550) := by decide
  refine ⟨hkv, by decide, ?_, ?_, ?_⟩
  · intro fuel
    exact (findByID_delete_diverge "sid2" 150 fuel stC7 sessC7 86550 hkv
      (by decide) (by decide)).1
  · intro fuel
    exact (findByID_delete_diverge "sid2" 150 fuel stC7 sessC7 86550 hkv
      (by decide) (by decide)).2
  · intro fuel
    have hdiv := (findByID_delete_diverge "sid2" 150 fuel stC7 sessC7 86550 hkv
      (by decide) (by decide)).1
    simp only [ValidateSession, hdiv, if_neg (by decide : ¬ ("sid2" : String) = "")]

/-- C6: when the username already exists (ExistsByUsername yields true),
Signup changes no store state and returns an error; when in addition the
request passes the length validation that precedes the uniqueness check, the
error is exactly "username already exists". -/
theorem C6_duplicate_username_rejected {W : Type}
    (existsByUsername : W → String → Except String Bool)
    (saveUser : W → UserRec → Except String W)
    (saveSession : W → Sess → Except String W)
    (hash : String → String) (uid : ObjectID) (sid : String) (now : Time)
    (w : W) (username password : String)
    (hex : existsByUsername w username = .ok true) :
    ((Signup existsByUsername saveUser saveSession hash uid sid now w
        username password).2 = w ∧
      ∃ e, (Signup existsByUsername saveUser saveSession hash uid sid now w
        username password).1 = .error e) ∧
    (3 ≤ username.length → 6 ≤ password.length →
      Signup existsByUsername saveUser saveSession hash uid sid now w
        username password = (.error "username already exists", w)) := by
  constructor
  · simp only [Signup]
    split_ifs <;> simp [hex]
  · intro hu hp
    have hu0 : ¬ username = "" := by
      intro h; rw [h] at hu; simp at hu
    have hp0 : ¬ password = "" := by
      intro h; rw [h] at hp; simp at hp
    simp [Signup, hu0, hp0, Nat.not_lt.mpr hu, Nat.not_lt.mpr hp, hex]

theorem C6_duplicate_username_rejected_witness :
    Signup (fun (_ : Nat) (_ : String) => (Except.ok true : Except String Bool))
      (fun n _ => Except.ok (n + 1)) (fun n _ => Except.ok (n + 1))
      (fun s => s) 1 "tok" 0 0 "alice" "secret1"
      = (.error "username already exists", 0) :=
  (C6_duplicate_username_rejected
      (fun (_ : Nat) (_ : String) => (Except.ok true : Except String Bool))
      (fun n _ => Except.ok (n + 1)) (fun n _ => Except.ok (n + 1))
      (fun s => s) 1 "tok" 0 0 "alice" "secret1" rfl).2 (by decide) (by decide)

theorem foldl_rDel_none (ids : List String) :
    ∀ (st : RedisState) (k : String), st.kv k = none →
      (ids.foldl (fun acc sid => rDel acc (skey sid)) st).kv k = none := by
  induction ids with
  | nil => intro st k h; exact h
  | cons a as ih =>
    intro st k h
    refine ih (rDel st (skey a)) k ?_
    simp only [rDel]
    split <;> simp [h]

theorem foldl_rDel_mem (ids : List String) :
    ∀ (st : RedisState) (sid : String), sid ∈ ids →
      (ids.foldl (fun acc sid => rDel acc (skey sid)) st).kv (skey sid) = none := by
  induction ids with
  | nil => intro st sid h; cases h
  | cons a as ih =>
    intro st sid h
    rcases List.mem_cons.mp h with rfl | hmem
    · by_cases has : sid ∈ as
      · exact ih (rDel st (skey sid)) sid has
      · refine foldl_rDel_none as (rDel st (skey sid)) (skey sid) ?_
        simp [rDel]
    · exact ih (rDel st (skey a)) sid hmem

/-- C8: authService.DeleteUser first deletes all of the user's sessions via
the session repository and only then deletes the user record; a failure of
the session deletion is returned as is, with the user-record deletion never
invoked.  On the Redis model, DeleteByUserID removes every session key
listed in the user's session set and empties that set. -/
theorem C8_delete_user_removes_sessions_first {W : Type}
    (delSessionsByUserID delUserRecord : W → ObjectID → Option String × W)
    (w : W) (userID : ObjectID) :
    (∀ e w1, delSessionsByUserID w userID = (some e, w1) →
       DeleteUser delSessionsByUserID delUserRecord w userID = (some e, w1)) ∧
    (∀ w1, delSessionsByUserID w userID = (none, w1) →
       DeleteUser delSessionsByUserID delUserRecord w userID = delUserRecord w1 userID) ∧
    (∀ (st : RedisState) (now : Time),
       (SessionRepo.DeleteByUserID st userID now).1 = .ok () ∧
       (∀ sid ∈ setLive st userID now,
          (SessionRepo.DeleteByUserID st userID now).2.kv (skey sid) = none) ∧
       setLive (SessionRepo.DeleteByUserID st userID now).2 userID now = []) := by
  refine ⟨?_, ?_, ?_⟩
  · intro e w1 h
    simp [DeleteUser, h]
  · intro w1 h
    simp [DeleteUser, h]
  · intro st now
    by_cases hids : setLive st userID now = []
    · refine ⟨by simp [SessionRepo.DeleteByUserID, hids], ?_, ?_⟩
      · intro sid hsid
        rw [hids] at hsid
        cases hsid
      · simp [SessionRepo.DeleteByUserID, hids]
    · refine ⟨by simp [SessionRepo.DeleteByUserID, hids], ?_, ?_⟩
      · intro sid hsid
        simp only [SessionRepo.DeleteByUserID, if_neg hids]
        show (setDel _ userID).kv (skey sid) = none
        simp only [setDel]
        exact foldl_rDel_mem _ st sid hsid
      · simp only [SessionRepo.DeleteByUserID, if_neg hids]
        show setLive (setDel _ userID) userID now = []
        simp [setDel, setLive]

theorem C8_delete_user_removes_sessions_first_witness :
    DeleteUser (fun (n : Nat) (_ : ObjectID) => (some "redis down", n + 1))
      (fun n _ => (none, n + 100)) 0 5 = (some "redis down", 1) :=
  (C8_delete_user_removes_sessions_first
      (fun (n : Nat) (_ : ObjectID) => (some "redis down", n + 1))
      (fun n _ => (none, n + 100)) 0 5).1 "redis down" 1 rfl

end Chess
